import Mathlib

/-!
Verification development for the watcher_railway student ranking backend.

The definitions below are shallow embeddings of the JavaScript source:
`src/utils/validators.js` (input validation), `src/routes/students.js`
(the MongoDB ranking route with its aggregation pipelines),
`src/controllers/sortBy.js` (the Couchbase/N1QL ranking controller) and
the Mongo revision of the controller (`averageratesort` and friends).
JS numbers that hold integers are modelled as `Int`/`Nat`, nullable
values as `Option`, thrown validation errors as `Except`.
-/

namespace Watcher

/-! ## JavaScript string primitives -/

/-- Characters matched by the regex class `\s` in JavaScript (ASCII part
plus the common Unicode spaces that can appear in query strings). -/
def jsIsSpace (c : Char) : Bool :=
  c == ' ' || c == '\t' || c == '\n' || c == '\r' ||
  c == '\x0b' || c == '\x0c' || c == ' ' || c == '﻿'

/-- Value of a list of decimal digit characters. -/
def digitsToNat (cs : List Char) : Nat :=
  cs.foldl (fun acc c => acc * 10 + (c.toNat - 48)) 0

/-- Leading run of decimal digits, `none` when there is none
(`parseInt` returns `NaN` in that case). -/
def leadingDigits (cs : List Char) : Option Nat :=
  let ds := cs.takeWhile Char.isDigit
  if ds.isEmpty then none else some (digitsToNat ds)

/-- JavaScript `parseInt(s, 10)`: skip leading whitespace, optional
sign, then the longest prefix of decimal digits; `none` models `NaN`. -/
def jsParseInt (s : String) : Option Int :=
  match s.toList.dropWhile jsIsSpace with
  | '-' :: rest => (leadingDigits rest).map (fun n => -(n : Int))
  | '+' :: rest => (leadingDigits rest).map (fun n => (n : Int))
  | cs => (leadingDigits cs).map (fun n => (n : Int))

/-- JavaScript `parseInt` applied to a possibly-missing query value
(`parseInt(undefined)` is `NaN`). -/
def jsParseIntOpt (s : Option String) : Option Int :=
  s.bind jsParseInt

/-- JavaScript truthiness of a `number | null` value: `null`, `0` are falsy. -/
def jsTruthyInt (n : Option Int) : Bool :=
  match n with
  | none => false
  | some v => !(v == 0)

/-! ## validators.js -/

/-- Characters kept by `validateSearch`, i.e. matching `[a-zA-Z0-9\s._-]`
(the replace removes everything else). -/
def searchKeep (c : Char) : Bool :=
  c.isAlpha || c.isDigit || jsIsSpace c || c == '.' || c == '_' || c == '-'

/-- JavaScript `String.prototype.trim`: strip whitespace from both ends. -/
def jsTrimList (cs : List Char) : List Char :=
  ((cs.dropWhile jsIsSpace).reverse.dropWhile jsIsSpace).reverse

/-- Embeds `validateSearch` from `src/utils/validators.js`: non-strings and the
empty string give `""`; otherwise strip characters outside
`[a-zA-Z0-9\s._-]`, trim, and truncate to 100 characters. -/
def validateSearch (search : Option String) : String :=
  match search with
  | none => ""
  | some s =>
    if s = "" then ""
    else ((jsTrimList (s.toList.filter searchKeep)).take 100).asString

/-- Embeds `validateSkip` from `src/utils/validators.js`: `NaN` and negative
parse results fall back to 0; a parsed value above 100000 throws. -/
def validateSkip (skip : Option String) : Except String Int :=
  match jsParseIntOpt skip with
  | none => .ok 0
  | some n =>
    if n < 0 then .ok 0
    else if n > 100000 then .error "Invalid skip: maximum offset exceeded"
    else .ok n

/-- Embeds `validateCampusId` from `src/utils/validators.js`: falsy input and
the literal `all` give `null`; otherwise `parseInt`, rejecting `NaN`
and values outside `[0, 999999]`. -/
def validateCampusId (campusId : Option String) : Except String (Option Int) :=
  match campusId with
  | none => .ok none
  | some s =>
    if s = "" || s = "all" then .ok none
    else
      match jsParseInt s with
      | none => .error "Invalid campusId: must be a positive integer"
      | some n =>
        if n < 0 || n > 999999 then
          .error "Invalid campusId: must be a positive integer"
        else .ok (some n)

/-- Embeds `validateLimit` from `src/utils/validators.js`: default 50, clamped
to `[1, 500]`. -/
def validateLimit (limit : Option String) : Int :=
  match jsParseIntOpt limit with
  | none => 50
  | some n => if n < 1 then 50 else if n > 500 then 500 else n

/-- The page size used by `router.get("/")` in `src/routes/students.js`:
`Math.min(validateLimit(req.query.limit), 50)`. -/
def routeLimit (limit : Option String) : Int :=
  min (validateLimit limit) 50

/-- The allowlist of `validateSort` in `src/utils/validators.js`. -/
def allowedSortFields : List String :=
  ["login", "level", "wallet", "correction_point",
   "first_name", "last_name", "displayname", "pool_month", "pool_year",
   "project_count", "cheat_count", "godfather_count", "children_count",
   "log_time", "evo_performance", "feedback_count", "avg_rating"]

/-- Embeds `validateSort` from `src/utils/validators.js`: falsy or
non-allowlisted input silently becomes the default `"login"`. -/
def validateSort (sort : Option String) : String :=
  match sort with
  | none => "login"
  | some s => if s = "" then "login" else if allowedSortFields.contains s then s else "login"

/-- The closed sort-key enumeration named by the specification
(section 4.4): the keys with a pipeline in `router.get("/")`. -/
def specSortKeys : List String :=
  ["login", "level", "wallet", "correction_point", "project_count",
   "cheat_count", "godfather_count", "children_count", "log_time",
   "feedback_count", "avg_rating"]

/-! ## Data model (records read by the ranking engine) -/

/-- Student document fields used by the ranking engine
(`active`, `alumni`, `staff` model the JS fields spelled with a
trailing question mark; `name` and `displayName` are the fields the
N1QL search predicate reads, possibly absent). -/
structure Student where
  login : String
  campusId : Int
  name : Option String
  displayName : Option String
  displayname : String
  email : String
  pool_month : String
  pool_year : String
  level : ℚ
  wallet : Int
  correction_point : Int
  grade : Option String
  active : Bool
  alumni : Bool
  staff : Bool
  blackholed : Bool
  is_test : Bool
  is_piscine : Bool
  sinker : Bool
  freeze : Bool
deriving DecidableEq, Repr

/-- Project record: a per-login fact with a score; score `-42` is the
cheat sentinel. -/
structure Project where
  login : String
  score : Int
  status : String
deriving DecidableEq, Repr

/-- Patronage document: one row per student with godfather/children
login arrays. -/
structure PatronageDoc where
  login : String
  godfathers : List String
  children : List String
deriving DecidableEq, Repr

/-- Location/attendance document: month key to days map, each day a
duration string. -/
structure LocationDoc where
  login : String
  months : List (String × List (String × String))
deriving DecidableEq, Repr

/-- Feedback record; `login` is the field the Couchbase controller and
the Mongo controller revision correlate on, `evaluated` the field the
`students.js` route correlates on; `rating` is nullable. -/
structure FeedbackDoc where
  login : String
  evaluated : String
  rating : Option Int
  campusId : Int
deriving DecidableEq, Repr

/-- The record store the ranking engine reads. -/
structure DB where
  students : List Student
  projects : List Project
  patronages : List PatronageDoc
  locationstats : List LocationDoc
  feedbacks : List FeedbackDoc
deriving DecidableEq, Repr

/-- Validated query parameters reaching the filter builders. -/
structure QueryArgs where
  campusId : Option Int
  pool : Option (String × String)
  search : String
  status : Option String
deriving DecidableEq, Repr

/-! ## Filter builder of `router.get("/")` in `src/routes/students.js` -/

/-- The status switch building `matchStage` (lines 300-335 of
`src/routes/students.js`). -/
def statusMatch (status : Option String) (s : Student) : Bool :=
  match status with
  | some "active" => s.active
  | some "inactive" => !s.active
  | some "test" => s.is_test
  | some "alumni" => s.alumni
  | some "staff" => s.staff
  | some "blackholed" => s.blackholed
  | some "transcender" => s.grade == some "Transcender"
  | some "cadet" => s.active && s.grade == some "Cadet"
  | some "piscine" => s.is_piscine
  | some "sinker" => s.sinker
  | some "freeze" => s.freeze
  | _ => true

/-- One character of the sanitized search pattern matched
case-insensitively; `.` survives sanitization and is a regex
wildcard in `new RegExp(validatedSearch, "i")`. -/
def regexCharMatch (pc c : Char) : Bool :=
  pc == '.' || pc.toLower == c.toLower

/-- Does the pattern match a prefix of the text? -/
def regexMatchPre : List Char → List Char → Bool
  | [], _ => true
  | _ :: _, [] => false
  | pc :: ps, c :: cs => regexCharMatch pc c && regexMatchPre ps cs

/-- Model of `new RegExp(pattern, "i").test(s)` for a sanitized pattern:
the pattern matches at some position of `s`. -/
def regexTest (p : String) (s : String) : Bool :=
  s.toList.tails.any (regexMatchPre p.toList)

/-- The `matchStage` predicate of `router.get("/")`
(campus equality is applied whenever `validatedCampusId !== null`). -/
def matchStage (a : QueryArgs) (s : Student) : Bool :=
  (match a.campusId with
   | some c => s.campusId == c
   | none => true) &&
  (match a.pool with
   | some (m, y) => s.pool_month == m && s.pool_year == y
   | none => true) &&
  (if a.search != "" then
     regexTest a.search s.login || regexTest a.search s.displayname ||
       regexTest a.search s.email
   else true) &&
  statusMatch a.status s

/-! ## Filter builder of `src/controllers/sortBy.js` (N1QL) -/

/-- One character of a N1QL `LIKE` pattern (after sanitization the only
wildcard the payload can contain is `_`). -/
def likeCharMatch (pc c : Char) : Bool :=
  pc == '_' || pc == c

/-- Prefix match for the payload between the two `%` of the pattern. -/
def likeMatchPre : List Char → List Char → Bool
  | [], _ => true
  | _ :: _, [] => false
  | pc :: ps, c :: cs => likeCharMatch pc c && likeMatchPre ps cs

/-- N1QL `LOWER(field) LIKE '%pattern%'` with an already lowercased
pattern. -/
def likeContains (p : String) (s : String) : Bool :=
  (s.toLower).toList.tails.any (likeMatchPre p.toList)

/-- The search clause of the N1QL controllers: `LIKE` against
`s.name`, `s.displayName`, `s.login`; a missing field compares as
`NULL`, never matching. -/
def n1qlSearchCond (search : String) (s : Student) : Bool :=
  (match s.name with
   | some v => likeContains search.toLower v
   | none => false) ||
  (match s.displayName with
   | some v => likeContains search.toLower v
   | none => false) ||
  likeContains search.toLower s.login

/-- The status switch shared by every function in
`src/controllers/sortBy.js` (also the `statusQuery` switch of the
Mongo controller revision): note lowercase grades, no `active?`
conjunct for cadet/transcender, and one for piscine. -/
def statusCondLower (status : Option String) (s : Student) : Bool :=
  match status with
  | some "active" => s.active
  | some "inactive" => !s.active
  | some "test" => s.is_test
  | some "alumni" => s.alumni
  | some "staff" => s.staff
  | some "blackholed" => s.blackholed
  | some "transcender" => s.grade == some "transcender"
  | some "cadet" => s.grade == some "cadet"
  | some "piscine" => s.grade == some "piscine" && s.active
  | some "sinker" => s.sinker
  | some "freeze" => s.freeze
  | _ => true

/-- The `WHERE` clause over students built by the N1QL controllers
(`whereConditions` / `studentFilters`): the campus clause is pushed
only when `campusId` is truthy, so `0` adds no clause. -/
def n1qlStudentFilter (campusId : Option Int) (pool : Option (String × String))
    (search : String) (status : Option String) (s : Student) : Bool :=
  (if jsTruthyInt campusId then s.campusId == campusId.getD 0 else true) &&
  (match pool with
   | some (m, y) => s.pool_month == m && s.pool_year == y
   | none => true) &&
  (if search != "" then n1qlSearchCond search s else true) &&
  statusCondLower status s

/-! ## Duration codec, detail view (`router.get("/:login")`, lines 152-177) -/

/-- Split a character list on a separator; the result is always
non-empty (`split` of the empty string is `[""]`, as in JS). -/
def splitOnChar (sep : Char) : List Char → List (List Char)
  | [] => [[]]
  | c :: rest =>
    match splitOnChar sep rest with
    | [] => if c == sep then [[], []] else [[c]]
    | t :: ts => if c == sep then [] :: t :: ts else (c :: t) :: ts

/-- JavaScript `s.split(sep)` for a one-character separator (also the
behaviour of MongoDB `$split`). -/
def jsSplit (s : String) (sep : Char) : List String :=
  (splitOnChar sep s.toList).map List.asString

/-- JavaScript `parseInt(x) || 0`: `NaN` falls back to 0 (so does a parsed 0,
which changes nothing). -/
def jsParseIntOr0 (s : Option String) : Int :=
  (jsParseIntOpt s).getD 0

/-- The per-day parsing of the detail view: split on `:`, parse the
three segments with `parseInt(...) || 0`, and produce
`hours * 60 + minutes + Math.floor(seconds / 60)` total MINUTES. -/
def parseDayMinutes (durationStr : String) : Int :=
  let parts := jsSplit durationStr ':'
  let hours := jsParseIntOr0 parts[0]?
  let minutes := jsParseIntOr0 parts[1]?
  let seconds := jsParseIntOr0 parts[2]?
  hours * 60 + minutes + Int.fdiv seconds 60

/-- JavaScript `day.padStart(2, "0")`. -/
def padStart2 (s : String) : String :=
  if s.length ≥ 2 then s else ((List.replicate (2 - s.length) '0').asString) ++ s

/-- The `logTimes` array built by the detail view: entries that are
falsy or exactly `"00:00:00"` are skipped, every other entry is kept
with its parsed duration in minutes.  Total function: malformed
entries parse to 0, nothing throws. -/
def detailLogTimes (months : List (String × List (String × Option String))) :
    List (String × Int) :=
  months.flatMap (fun md =>
    (md.2.filter (fun dv =>
        match dv.2 with
        | none => false
        | some v => v != "" && v != "00:00:00")).map
      (fun dv => (md.1 ++ "-" ++ padStart2 dv.1, parseDayMinutes ((dv.2).getD ""))))

/-! ## Duration codec, ranking pipeline (`log_time` `$reduce`, lines 552-630) -/

/-- MongoDB `$toInt` on a string: the whole string must be a base-10
integer, otherwise the aggregation errors (`none` here). -/
def mongoIntOfChars : List Char → Option Int
  | [] => none
  | c :: cs =>
    if c == '-' then
      if !cs.isEmpty && cs.all Char.isDigit then some (-(digitsToNat cs : Int)) else none
    else if (c :: cs).all Char.isDigit then some (digitsToNat (c :: cs) : Int) else none

def mongoIntOfString (s : String) : Option Int :=
  mongoIntOfChars s.toList

/-- MongoDB `$toInt` applied to a possibly-missing array element: a missing or
null segment becomes null (which the surrounding `$multiply`/`$add`
propagate), a non-numeric string raises an aggregation error. -/
def mToInt (v : Option String) : Except Unit (Option Int) :=
  match v with
  | none => .ok none
  | some s =>
    match mongoIntOfString s with
    | some n => .ok (some n)
    | none => .error ()

/-- MongoDB `$add` on two nullable numbers: null-propagating. -/
def addN : Option Int → Option Int → Option Int
  | some a, some b => some (a + b)
  | _, _ => none

/-- MongoDB `$multiply` of a nullable number by a constant. -/
def mulN (x : Option Int) (k : Int) : Option Int :=
  x.map (· * k)

/-- One day entry of the `$reduce`: `$split` on `:` (once per segment,
as in the source's `$let` vars), `$toInt` the three segments, combine
as `h * 3600 + m * 60 + s` with null propagation. -/
def dayLogSeconds (v : String) : Except Unit (Option Int) := do
  let h ← mToInt (jsSplit v ':')[0]?
  let m ← mToInt (jsSplit v ':')[1]?
  let s ← mToInt (jsSplit v ':')[2]?
  pure (addN (addN (mulN h 3600) (mulN m 60)) s)

/-- Inner `$reduce` over the days of one month, initial value 0. -/
def daysLogSeconds (days : List (String × String)) : Except Unit (Option Int) :=
  days.foldlM (fun acc dv => do pure (addN acc (← dayLogSeconds dv.2))) (some 0)

/-- Outer `$reduce` over the months map: the `log_time` value of the
ranking pipeline (an error aborts the whole aggregation request). -/
def totalLogSeconds (months : List (String × List (String × String))) :
    Except Unit (Option Int) :=
  months.foldlM (fun acc md => do pure (addN acc (← daysLogSeconds md.2))) (some 0)

/-- Well-formedness of a duration string: exactly three nonempty
all-digit segments `HH:MM:SS`. -/
def isHMS (v : String) : Bool :=
  let parts := jsSplit v ':'
  parts.length == 3 && parts.all (fun p => p != "" && p.toList.all Char.isDigit)

/-- Nominal value of a well-formed `HH:MM:SS` string in seconds. -/
def hmsVal (v : String) : Int :=
  match jsSplit v ':' with
  | [h, m, s] =>
    (digitsToNat h.toList : Int) * 3600 + (digitsToNat m.toList : Int) * 60 +
      (digitsToNat s.toList : Int)
  | _ => 0

/-- Every day string of every month is well-formed. -/
def allHMS (months : List (String × List (String × String))) : Prop :=
  ∀ md ∈ months, ∀ dv ∈ md.2, isHMS dv.2 = true

instance (months : List (String × List (String × String))) :
    Decidable (allHMS months) := by
  unfold allHMS; infer_instance

/-- Nominal total of a months map in seconds. -/
def hmsTotal (months : List (String × List (String × String))) : Int :=
  (months.map (fun md => (md.2.map (fun dv => hmsVal dv.2)).sum)).sum

/-! ## Join helpers shared by the pipelines of `router.get("/")` -/

/-- The `cheatProjects` lookup: project records of the login with the
cheat sentinel score `-42`. -/
def cheatProjectsOf (db : DB) (login : String) : List Project :=
  db.projects.filter (fun p => p.login == login && p.score == -42)

/-- The `has_cheats` field: the lookup (with `$limit 1`) is non-empty. -/
def hasCheats (db : DB) (login : String) : Bool :=
  !(cheatProjectsOf db login).isEmpty

/-- The `cheat_count` field: `$size` of the full cheat lookup. -/
def cheatCountOf (db : DB) (login : String) : Nat :=
  (cheatProjectsOf db login).length

/-- The `project_count` field: `$size` of the plain projects lookup (every
project record of the login, regardless of status). -/
def projectCountOf (db : DB) (login : String) : Nat :=
  (db.projects.filter (fun p => p.login == login)).length

/-- Stage `$arrayElemAt ['$patronage', 0]` of the patronages lookup. -/
def patronageOf (db : DB) (login : String) : Option PatronageDoc :=
  (db.patronages.filter (fun p => p.login == login)).head?

/-- The `godfather_count` field: size of the first patronage document's
godfathers array, `$ifNull` 0-length. -/
def godfatherCountOf (db : DB) (login : String) : Nat :=
  ((patronageOf db login).map (fun p => p.godfathers.length)).getD 0

/-- The `children_count` field: size of the first patronage document's children
array, `$ifNull` 0-length. -/
def childrenCountOf (db : DB) (login : String) : Nat :=
  ((patronageOf db login).map (fun p => p.children.length)).getD 0

/-- Stage `$ifNull [$arrayElemAt ['$locationData.months', 0], {}]`. -/
def monthsOf (db : DB) (login : String) : List (String × List (String × String)) :=
  (((db.locationstats.filter (fun l => l.login == login)).head?).map
    (fun l => l.months)).getD []

/-- The `feedback_count` field: size of the feedbacks lookup on `evaluated`. -/
def feedbackCountOf (db : DB) (login : String) : Nat :=
  (db.feedbacks.filter (fun f => f.evaluated == login)).length

/-- The ratings of the `avg_rating` lookup: feedbacks whose `evaluated`
is the login and whose rating is not null. -/
def nonNullRatingsOf (db : DB) (login : String) : List Int :=
  (db.feedbacks.filter (fun f => f.evaluated == login)).filterMap (fun f => f.rating)

/-- MongoDB `$avg` over a list of numbers: null on the empty list,
otherwise the arithmetic mean. -/
def mongoAvg (l : List Int) : Option ℚ :=
  if l.isEmpty then none else some ((l.map (fun n => (n : ℚ))).sum / l.length)

/-! ## Ranked rows -/

/-- A derived field value appearing on a response row. -/
inductive DVal where
  | b (x : Bool)
  | i (x : Int)
  | oi (x : Option Int)
  | oq (x : Option ℚ)
deriving DecidableEq, Repr

/-- A response row: the base student document plus the derived fields
added by `$addFields` (in source order), with the lookup scaffolding
already `$project`-ed away. -/
structure Row where
  base : Student
  derived : List (String × DVal)
deriving DecidableEq, Repr

/-- Insert into a list sorted by the comparator. -/
def insertLe {α : Type} (le : α → α → Bool) (x : α) : List α → List α
  | [] => [x]
  | y :: ys => if le x y then x :: y :: ys else y :: insertLe le x ys

/-- Sort by a comparator (insertion sort; the store's sort only
guarantees the comparator order, ties are unspecified). -/
def sortLe {α : Type} (le : α → α → Bool) : List α → List α
  | [] => []
  | x :: xs => insertLe le x (sortLe le xs)

theorem mem_insertLe {α : Type} {le : α → α → Bool} {x a : α} {l : List α}
    (h : a ∈ insertLe le x l) : a = x ∨ a ∈ l := by
  induction l with
  | nil => simpa [insertLe] using h
  | cons y ys ih =>
    unfold insertLe at h
    by_cases hc : le x y
    · rw [if_pos hc, List.mem_cons] at h
      exact h
    · rw [if_neg hc, List.mem_cons] at h
      rcases h with h | h
      · exact Or.inr (h ▸ List.mem_cons_self _ _)
      · rcases ih h with h1 | h1
        · exact Or.inl h1
        · exact Or.inr (List.mem_cons_of_mem _ h1)

theorem mem_sortLe {α : Type} {le : α → α → Bool} {a : α} {l : List α}
    (h : a ∈ sortLe le l) : a ∈ l := by
  induction l with
  | nil => simp [sortLe] at h
  | cons x xs ih =>
    unfold sortLe at h
    rcases mem_insertLe h with h1 | h1
    · exact h1 ▸ List.mem_cons_self _ _
    · exact List.mem_cons_of_mem _ (ih h1)

/-- Stages `$sort` + `$skip` + `$limit`. -/
def paginate {α : Type} (le : α → α → Bool) (skip limit : Nat) (l : List α) : List α :=
  ((sortLe le l).drop skip).take limit

theorem mem_paginate {α : Type} {le : α → α → Bool} {skip limit : Nat}
    {l : List α} {x : α} (h : x ∈ paginate le skip limit l) : x ∈ l := by
  have h1 := List.mem_of_mem_take h
  have h2 := List.mem_of_mem_drop h1
  exact mem_sortLe h2

/-- Comparator for the four raw sort fields. -/
def baseSortLe (key : String) (a b : Student) : Bool :=
  match key with
  | "level" => decide (a.level ≤ b.level)
  | "wallet" => decide (a.wallet ≤ b.wallet)
  | "correction_point" => decide (a.correction_point ≤ b.correction_point)
  | _ => decide (a.login ≤ b.login)

/-- Ascending/descending wrapper around a comparator. -/
def dir {α : Type} (asc : Bool) (le : α → α → Bool) (a b : α) : Bool :=
  if asc then le a b else le b a

/-- BSON order on nullable ints: null sorts before every number. -/
def leOptInt (a b : Option Int) : Bool :=
  match a, b with
  | none, _ => true
  | some _, none => false
  | some x, some y => decide (x ≤ y)

/-- BSON order on nullable rationals: null sorts before every number. -/
def leOptQ (a b : Option ℚ) : Bool :=
  match a, b with
  | none, _ => true
  | some _, none => false
  | some x, some y => decide (x ≤ y)

/-- Errors a ranking request can signal: the 400 of the default switch
case, or a server-side aggregation error. -/
inductive PErr where
  | invalidSort
  | aggError
deriving DecidableEq, Repr

/-- The document set of the `cheat_count` pipeline after `$lookup`,
`$addFields cheat_count` and the merged `$match` (the spread
`matchStage` plus `cheat_count: { $gt: 0 }`); the count pipeline of
that sort key runs exactly the same stages before `$count`. -/
def cheatPairs (db : DB) (a : QueryArgs) : List (Student × Nat) :=
  (db.students.map (fun s => (s, cheatCountOf db s.login))).filter
    (fun p => matchStage a p.1 && decide (0 < p.2))

/-- The document set of the `avg_rating` pipeline after the rating
`$lookup` and `$addFields avg_rating` (before `$sort`/`$skip`/`$limit`):
every `matchStage`-filtered student, paired with `$avg` of its
non-null ratings. -/
def avgPairs (db : DB) (a : QueryArgs) : List (Student × Option ℚ) :=
  (db.students.filter (matchStage a)).map
    (fun s => (s, mongoAvg (nonNullRatingsOf db s.login)))

/-- The document set of the `log_time` pipeline after `$match`,
`$lookup` and the `$reduce`-based `$addFields`: each filtered student
paired with its total logged seconds; a `$toInt` failure anywhere
aborts the aggregation with a server error. -/
def logTimePairs (db : DB) (a : QueryArgs) :
    Except PErr (List (Student × Option Int)) :=
  (db.students.filter (matchStage a)).mapM (fun s =>
    match totalLogSeconds (monthsOf db s.login) with
    | .error _ => .error PErr.aggError
    | .ok v => .ok (s, v))

/-- The aggregation pipeline `router.get("/")` builds for a validated
sort key (`pipeline` in `src/routes/students.js`): one case per sort
key, the default case signalling the 400 `Invalid sort field`. -/
def pipelineRows (key : String) (db : DB) (a : QueryArgs) (asc : Bool)
    (skip limit : Nat) : Except PErr (List Row) :=
  match key with
  | "login" | "level" | "wallet" | "correction_point" =>
    let filtered := db.students.filter (matchStage a)
    .ok ((paginate (dir asc (baseSortLe key)) skip limit filtered).map
      (fun s => ⟨s, [("has_cheats", .b (hasCheats db s.login))]⟩))
  | "project_count" =>
    let pairs := (db.students.filter (matchStage a)).map
      (fun s => (s, projectCountOf db s.login))
    .ok ((paginate (dir asc (fun x y => decide (x.2 ≤ y.2))) skip limit pairs).map
      (fun p => ⟨p.1, [("project_count", .i p.2), ("has_cheats", .b (hasCheats db p.1.login))]⟩))
  | "cheat_count" =>
    .ok ((paginate (dir asc (fun x y => decide (x.2 ≤ y.2))) skip limit (cheatPairs db a)).map
      (fun p => ⟨p.1, [("cheat_count", .i p.2), ("has_cheats", .b true)]⟩))
  | "godfather_count" | "children_count" =>
    let pairs := (db.students.filter (matchStage a)).map
      (fun s => (s, godfatherCountOf db s.login, childrenCountOf db s.login))
    let sortVal : Student × Nat × Nat → Nat :=
      if key == "children_count" then (fun p => p.2.2) else (fun p => p.2.1)
    .ok ((paginate (dir asc (fun x y => decide (sortVal x ≤ sortVal y))) skip limit pairs).map
      (fun p => ⟨p.1, [("godfather_count", .i p.2.1), ("children_count", .i p.2.2),
                       ("has_cheats", .b (hasCheats db p.1.login))]⟩))
  | "log_time" => do
    let pairs ← logTimePairs db a
    .ok ((paginate (dir asc (fun x y => leOptInt x.2 y.2)) skip limit pairs).map
      (fun p => ⟨p.1, [("log_time", .oi p.2), ("has_cheats", .b (hasCheats db p.1.login))]⟩))
  | "feedback_count" =>
    let pairs := (db.students.filter (matchStage a)).map
      (fun s => (s, feedbackCountOf db s.login))
    .ok ((paginate (dir asc (fun x y => decide (x.2 ≤ y.2))) skip limit pairs).map
      (fun p => ⟨p.1, [("feedback_count", .i p.2), ("has_cheats", .b (hasCheats db p.1.login))]⟩))
  | "avg_rating" =>
    .ok ((paginate (dir asc (fun x y => leOptQ x.2 y.2)) skip limit (avgPairs db a)).map
      (fun p => ⟨p.1, [("avg_rating", .oq p.2), ("has_cheats", .b (hasCheats db p.1.login))]⟩))
  | _ => .error PErr.invalidSort

/-- The count pipeline of `router.get("/")`: every sort key counts the
`matchStage`-filtered students, except `cheat_count`, whose count
pipeline repeats the lookup and keeps only students with a positive
cheat count. -/
def countTotal (key : String) (db : DB) (a : QueryArgs) : Nat :=
  if key == "cheat_count" then (cheatPairs db a).length
  else (db.students.filter (matchStage a)).length

/-- Documents emitted by `$count`: none when the input is empty,
otherwise a single total. -/
def countDocs (n : Nat) : List Nat :=
  if n = 0 then [] else [n]

/-- JS `countResult.length > 0 ? countResult[0].total : 0`. -/
def extractTotal (rows : List Nat) : Nat :=
  rows.headD 0

/-- JS `Math.ceil(total / limit)` for a positive integer limit. -/
def jsMathCeilDiv (t l : Nat) : Nat :=
  (t + l - 1) / l

/-- The pagination object of the response (lines 743-777). -/
structure Pagination where
  total : Nat
  page : Int
  limit : Int
  totalPages : Nat
deriving DecidableEq, Repr

/-- A ranking response. -/
structure RankResponse where
  students : List Row
  pagination : Pagination
deriving DecidableEq, Repr

/-- The whole of `router.get("/")` after validation: build the skip
from page and the capped limit, run the matching pipeline and the
count pipeline, and shape the response (a negative `$skip` is a
MongoDB error). -/
def rankResponse (key : String) (db : DB) (a : QueryArgs) (asc : Bool)
    (page : Int) (rawLimit : Option String) : Except PErr RankResponse := do
  let l := routeLimit rawLimit
  let skip := (page - 1) * l
  if skip < 0 then .error PErr.aggError
  else do
    let rows ← pipelineRows key db a asc skip.toNat l.toNat
    let total := extractTotal (countDocs (countTotal key db a))
    pure { students := rows,
           pagination := { total := total, page := page, limit := l,
                           totalPages := jsMathCeilDiv total l.toNat } }

/-! ## `loginbasesort` in `src/controllers/sortBy.js` -/

/-- The count query of `loginbasesort`: `COUNT(*)` over the filtered
students. -/
def loginbasesortTotal (db : DB) (campusId : Option Int)
    (pool : Option (String × String)) (search : String)
    (status : Option String) : Nat :=
  (db.students.filter (n1qlStudentFilter campusId pool search status)).length

/-- The pagination object `loginbasesort` returns
(`totalPages = Math.ceil(total / limit)`, lines 103-120). -/
def loginbasesortPagination (db : DB) (campusId : Option Int)
    (pool : Option (String × String)) (search : String)
    (status : Option String) (limit page : Nat) : Pagination :=
  let total := loginbasesortTotal db campusId pool search status
  { total := total, page := (page : Int), limit := (limit : Int),
    totalPages := jsMathCeilDiv total limit }

/-! ## `projectcheatsort` in `src/controllers/sortBy.js` -/

/-- The join of `projectcheatsort`: project rows with the cheat
sentinel, inner-joined to the students passing the filter. -/
def cheatJoinTuples (db : DB) (campusId : Option Int)
    (pool : Option (String × String)) (search : String)
    (status : Option String) : List (Project × Student) :=
  db.projects.flatMap (fun p =>
    if p.score == -42 then
      (db.students.filter (fun s =>
        s.login == p.login && n1qlStudentFilter campusId pool search status s)).map
        (fun s => (p, s))
    else [])

/-- The `GROUP BY` over every student column of the join: one output row per
distinct joined student, with `COUNT(p.login)` as `cheat_count`. -/
def projectcheatGroups (db : DB) (campusId : Option Int)
    (pool : Option (String × String)) (search : String)
    (status : Option String) : List (Student × Nat) :=
  let ts := cheatJoinTuples db campusId pool search status
  ((ts.map (fun t => t.2)).dedup).map
    (fun s => (s, (ts.filter (fun t => t.2 == s)).length))

/-- The count query of `projectcheatsort`:
`COUNT(DISTINCT p.login)` over the same join. -/
def projectcheatTotal (db : DB) (campusId : Option Int)
    (pool : Option (String × String)) (search : String)
    (status : Option String) : Nat :=
  ((cheatJoinTuples db campusId pool search status).map
    (fun t => t.1.login)).dedup.length

/-! ## `averageratesort` of the Mongo controller revision -/

/-- The `$or` regex clause of the revision's `baseQuery`: regex match on
`name`, `displayName`, `login`; a missing field never matches. -/
def p9RegexOr (search : String) (s : Student) : Bool :=
  (match s.name with
   | some v => regexTest search v
   | none => false) ||
  (match s.displayName with
   | some v => regexTest search v
   | none => false) ||
  regexTest search s.login

/-- The `baseQuery`-plus-`statusQuery` student match of the revision's
`$lookup` (campus and pool are spread in only when truthy). -/
def p9StudentMatch (campusId : Option Int) (pool : Option (String × String))
    (search : String) (status : Option String) (s : Student) : Bool :=
  (if jsTruthyInt campusId then s.campusId == campusId.getD 0 else true) &&
  (match pool with
   | some (m, y) => s.pool_month == m && s.pool_year == y
   | none => true) &&
  p9RegexOr search s &&
  statusCondLower status s

/-- The `$group` of the revision's `averageratesort`: feedbacks with a
non-null rating (campus pre-filter applied when truthy), grouped by
the feedback `login` with `$avg` of the ratings. -/
def p9AvgPairs (db : DB) (campusId : Option Int) : List (String × ℚ) :=
  let fs := db.feedbacks.filter (fun f =>
    (if jsTruthyInt campusId then f.campusId == campusId.getD 0 else true) &&
    f.rating.isSome)
  ((fs.map (fun f => f.login)).dedup).map (fun l =>
    let rs := (fs.filter (fun f => f.login == l)).filterMap (fun f => f.rating)
    (l, (rs.map (fun n => (n : ℚ))).sum / rs.length))

/-- The population of the revision's `averageratesort` before
`$sort`/`$skip`/`$limit`: each rating group joined (`$lookup` then
`$unwind`) to the matching students and `$mergeObjects`-ed with its
average. A student with no non-null rating yields no group and is
absent. -/
def p9AvgPopulation (db : DB) (campusId : Option Int)
    (pool : Option (String × String)) (search : String)
    (status : Option String) : List Row :=
  (p9AvgPairs db campusId).flatMap (fun lv =>
    (db.students.filter (fun s =>
      s.login == lv.1 && p9StudentMatch campusId pool search status s)).map
      (fun s => ⟨s, [("avg_rating", .oq (some lv.2))]⟩))

/-! ## Derived-field shape of the response rows -/

/-- The derived field names every row of a given sort key's pipeline
carries, in `$addFields` order. -/
def expectedDerived (key : String) : List String :=
  match key with
  | "login" | "level" | "wallet" | "correction_point" => ["has_cheats"]
  | "godfather_count" | "children_count" =>
    ["godfather_count", "children_count", "has_cheats"]
  | k => [k, "has_cheats"]

/-! ## Concrete fixtures used by witnesses and counterexamples -/

/-- Request with no filters at all. -/
def noArgs : QueryArgs := ⟨none, none, "", none⟩

/-- A student document with the given login and campus, all the other
fields neutral. -/
def mkStudent (login : String) (campusId : Int) : Student :=
  { login := login, campusId := campusId, name := none, displayName := none,
    displayname := login, email := login, pool_month := "march",
    pool_year := "2024", level := 0, wallet := 0, correction_point := 0,
    grade := none, active := true, alumni := false, staff := false,
    blackholed := false, is_test := false, is_piscine := false,
    sinker := false, freeze := false }

/-- The empty record store. -/
def emptyDb : DB := ⟨[], [], [], [], []⟩

/-- A student with no feedback and no projects. -/
def zoe : Student := mkStudent "zoe" 1

/-- A store holding only `zoe`. -/
def dbZoe : DB := ⟨[zoe], [], [], [], []⟩

/-- A student with one cheat-flagged project. -/
def alice : Student := mkStudent "alice" 1

/-- A store where `alice` has one project with the sentinel score. -/
def dbAlice : DB := ⟨[alice], [⟨"alice", -42, "fail"⟩], [], [], []⟩

/-- A student whose grade is `Transcender` but whose active flag is
false. -/
def inactiveTranscender : Student :=
  { mkStudent "itr" 1 with grade := some "Transcender", active := false }

/-! ## Theorems -/

theorem toList_asString (l : List Char) : (List.asString l).toList = l := rfl

theorem mem_jsTrimList {c : Char} {l : List Char} (h : c ∈ jsTrimList l) : c ∈ l := by
  unfold jsTrimList at h
  rw [List.mem_reverse] at h
  have h1 := (List.dropWhile_sublist jsIsSpace).mem h
  rw [List.mem_reverse] at h1
  exact (List.dropWhile_sublist jsIsSpace).mem h1

/-- C7 (counterexample): the claim restricts the sanitizer's output
alphabet to `[A-Za-z0-9 ._-]`, but JavaScript `\s` also matches a tab,
which therefore survives sanitization in the middle of the string. -/
theorem validateSearch_tab_escapes_claimed_class :
    validateSearch (some "a\tb") = "a\tb" ∧
    ((validateSearch (some "a\tb")).toList.all (fun c =>
      c.isAlpha || c.isDigit || c == ' ' || c == '.' || c == '_' || c == '-')) = false := by
  constructor
  · rfl
  · rfl

/-- C7 (amended): for every input, `validateSearch` returns a string of
length at most 100 whose characters all lie in the sanitizer's class
`[a-zA-Z0-9\s._-]` (whitespace, not only the space character), and it
never throws (it is a total function). -/
theorem validateSearch_sanitizes (search : Option String) :
    (validateSearch search).length ≤ 100 ∧
    ∀ c ∈ (validateSearch search).toList, searchKeep c = true := by
  match search with
  | none => exact ⟨by simp [validateSearch], by simp [validateSearch, String.toList]⟩
  | some s =>
    by_cases hs : s = ""
    · subst hs
      exact ⟨by simp [validateSearch], by simp [validateSearch, String.toList]⟩
    · have he : validateSearch (some s) =
          ((jsTrimList (s.toList.filter searchKeep)).take 100).asString := by
        simp [validateSearch, hs]
      rw [he]
      constructor
      · rw [List.length_asString]
        exact List.length_take_le 100 _
      · intro c hc
        rw [toList_asString] at hc
        have h1 := List.mem_of_mem_take hc
        have h2 := mem_jsTrimList h1
        exact (List.mem_filter.mp h2).2

/-- C7 (witness): the sanitizer keeps the character `a` of a concrete
input, and that character lies in the sanitizer's class. -/
theorem validateSearch_sanitizes_witness :
    searchKeep 'a' = true :=
  (validateSearch_sanitizes (some "abc")).2 'a' (by decide)

/-- C8: the validated skip always lies in `[0, 100000]`; a `NaN` or
negative parse falls back to 0, and a parsed value above 100000 is a
hard validation error. -/
theorem validateSkip_spec (skip : Option String) :
    (∀ n, validateSkip skip = .ok n → 0 ≤ n ∧ n ≤ 100000) ∧
    ((jsParseIntOpt skip = none ∨ ∃ m, jsParseIntOpt skip = some m ∧ m < 0) →
      validateSkip skip = .ok 0) ∧
    (∀ m, jsParseIntOpt skip = some m → 100000 < m →
      validateSkip skip = .error "Invalid skip: maximum offset exceeded") := by
  rcases h : jsParseIntOpt skip with _ | m
  · have he : validateSkip skip = .ok 0 := by simp [validateSkip, h]
    refine ⟨fun n hn => ?_, fun _ => he, fun m hm => by cases hm⟩
    rw [he] at hn
    cases hn
    omega
  · have he : validateSkip skip =
        (if m < 0 then .ok 0
         else if m > 100000 then .error "Invalid skip: maximum offset exceeded"
         else .ok m) := by
      simp [validateSkip, h]
    refine ⟨fun n hn => ?_, fun hm => ?_, fun k hk hgt => ?_⟩
    · rw [he] at hn
      by_cases h1 : m < 0
      · rw [if_pos h1] at hn
        cases hn
        omega
      · rw [if_neg h1] at hn
        by_cases h2 : m > 100000
        · rw [if_pos h2] at hn
          cases hn
        · rw [if_neg h2] at hn
          cases hn
          omega
    · rcases hm with hm | ⟨k, hk, hneg⟩
      · exact Option.noConfusion hm
      · injection hk with hk2
        subst hk2
        rw [he, if_pos hneg]
    · injection hk with hk2
      subst hk2
      rw [he, if_neg (by omega), if_pos hgt]

/-- C8 (witness): skip 200000 is rejected, skip -3 falls back to 0. -/
theorem validateSkip_spec_witness :
    validateSkip (some "200000") = .error "Invalid skip: maximum offset exceeded" ∧
    validateSkip (some "-3") = .ok 0 :=
  ⟨(validateSkip_spec (some "200000")).2.2 200000 (by decide) (by decide),
   (validateSkip_spec (some "-3")).2.1 (Or.inr ⟨-3, by decide, by decide⟩)⟩

theorem except_error_bind {ε α β : Type} (e : ε) (k : α → Except ε β) :
    (Except.error e >>= k) = Except.error e := rfl

theorem except_ok_bind {ε α β : Type} (v : α) (k : α → Except ε β) :
    (Except.ok v >>= k) = k v := rfl

theorem mapM_ne_invalidSort {α β : Type} (f : α → Except PErr β) (l : List α)
    (hf : ∀ x, f x ≠ .error PErr.invalidSort) :
    l.mapM f ≠ .error PErr.invalidSort := by
  induction l with
  | nil =>
    rw [List.mapM_nil]
    intro hc
    cases hc
  | cons a l ih =>
    rw [List.mapM_cons]
    rcases hfa : f a with e | b
    · rw [except_error_bind]
      intro hc
      injection hc with h2
      exact hf a (by rw [hfa, h2])
    · rw [except_ok_bind]
      rcases hml : l.mapM f with e2 | bs
      · rw [except_error_bind]
        intro hc
        injection hc with h2
        exact ih (by rw [hml, h2])
      · rw [except_ok_bind]
        intro hc
        cases hc

theorem pipelineRows_spec_key_ok {key : String} (hk : key ∈ specSortKeys)
    (db : DB) (a : QueryArgs) (asc : Bool) (skip limit : Nat) :
    pipelineRows key db a asc skip limit ≠ .error PErr.invalidSort := by
  simp only [specSortKeys, List.mem_cons, List.not_mem_nil, or_false] at hk
  rcases hk with rfl | rfl | rfl | rfl | rfl | rfl | rfl | rfl | rfl | rfl | rfl
  case inl => intro hc; cases hc
  case inr.inl => intro hc; cases hc
  case inr.inr.inl => intro hc; cases hc
  case inr.inr.inr.inl => intro hc; cases hc
  case inr.inr.inr.inr.inl => intro hc; cases hc
  case inr.inr.inr.inr.inr.inl => intro hc; cases hc
  case inr.inr.inr.inr.inr.inr.inl => intro hc; cases hc
  case inr.inr.inr.inr.inr.inr.inr.inl => intro hc; cases hc
  case inr.inr.inr.inr.inr.inr.inr.inr.inl =>
    have hred : pipelineRows "log_time" db a asc skip limit =
        (logTimePairs db a >>= fun pairs =>
          Except.ok ((paginate (dir asc (fun x y => leOptInt x.2 y.2)) skip limit pairs).map
            (fun p => ⟨p.1, [("log_time", .oi p.2),
                             ("has_cheats", .b (hasCheats db p.1.login))]⟩))) := rfl
    rw [hred]
    rcases hml : logTimePairs db a with e | pairs
    · rw [except_error_bind]
      intro hc
      injection hc with h2
      refine mapM_ne_invalidSort _ _ (fun x => ?_) (by rw [← logTimePairs, hml, h2])
      rcases htl : totalLogSeconds (monthsOf db x.login) with u | v
      · simp
      · simp
    · rw [except_ok_bind]
      intro hc
      cases hc
  case inr.inr.inr.inr.inr.inr.inr.inr.inr.inl => intro hc; cases hc
  case inr.inr.inr.inr.inr.inr.inr.inr.inr.inr => intro hc; cases hc

/-- C4 (counterexample): the sort key `garbage` is outside the closed
enumeration, yet the request is not rejected: `validateSort` silently
maps it to the default `login` and the ranking succeeds. -/
theorem unknown_sort_key_not_rejected :
    validateSort (some "garbage") = "login" ∧
    pipelineRows (validateSort (some "garbage")) emptyDb noArgs true 0 50 = .ok [] := by
  exact ⟨rfl, rfl⟩

/-- C4 (amended): a requested sort key outside `validateSort`'s
allowlist is silently replaced by the default `login` and produces a
login-sorted result; the 400 `Invalid sort field` branch is reached
exactly for the allowlisted keys that have no pipeline case
(`first_name`, `last_name`, `displayname`, `pool_month`, `pool_year`,
`evo_performance`), never for arbitrary unknown keys. -/
theorem sort_key_dispatch (s : String) (db : DB) (a : QueryArgs)
    (asc : Bool) (skip limit : Nat) :
    (s ∉ allowedSortFields →
      pipelineRows (validateSort (some s)) db a asc skip limit =
        pipelineRows "login" db a asc skip limit) ∧
    (pipelineRows (validateSort (some s)) db a asc skip limit = .error PErr.invalidSort ↔
      s ∈ ["first_name", "last_name", "displayname", "pool_month", "pool_year",
           "evo_performance"]) := by
  by_cases hs : s = ""
  · subst hs
    have hv : validateSort (some "") = "login" := rfl
    rw [hv]
    refine ⟨fun _ => rfl, ?_⟩
    constructor
    · intro hc
      exact absurd hc (pipelineRows_spec_key_ok (by simp [specSortKeys]) db a asc skip limit)
    · intro hc
      simp at hc
  · have hv0 : validateSort (some s) =
        (if s = "" then "login"
         else if allowedSortFields.contains s then s else "login") := rfl
    by_cases hcont : allowedSortFields.contains s
    · have hv : validateSort (some s) = s := by
        rw [hv0, if_neg hs, if_pos hcont]
      rw [hv]
      have hmem : s ∈ allowedSortFields := by
        rw [← List.elem_iff]
        exact hcont
      constructor
      · intro hnot
        exact absurd hmem hnot
      · simp only [allowedSortFields, List.mem_cons, List.not_mem_nil, or_false] at hmem
        rcases hmem with rfl | rfl | rfl | rfl | rfl | rfl | rfl | rfl | rfl | rfl | rfl |
          rfl | rfl | rfl | rfl | rfl | rfl
        · exact ⟨fun hc => absurd hc (pipelineRows_spec_key_ok (by simp [specSortKeys]) db a asc skip limit),
                 fun hc => by simp at hc⟩
        · exact ⟨fun hc => absurd hc (pipelineRows_spec_key_ok (by simp [specSortKeys]) db a asc skip limit),
                 fun hc => by simp at hc⟩
        · exact ⟨fun hc => absurd hc (pipelineRows_spec_key_ok (by simp [specSortKeys]) db a asc skip limit),
                 fun hc => by simp at hc⟩
        · exact ⟨fun hc => absurd hc (pipelineRows_spec_key_ok (by simp [specSortKeys]) db a asc skip limit),
                 fun hc => by simp at hc⟩
        · exact ⟨fun _ => by simp, fun _ => rfl⟩
        · exact ⟨fun _ => by simp, fun _ => rfl⟩
        · exact ⟨fun _ => by simp, fun _ => rfl⟩
        · exact ⟨fun _ => by simp, fun _ => rfl⟩
        · exact ⟨fun _ => by simp, fun _ => rfl⟩
        · exact ⟨fun hc => absurd hc (pipelineRows_spec_key_ok (by simp [specSortKeys]) db a asc skip limit),
                 fun hc => by simp at hc⟩
        · exact ⟨fun hc => absurd hc (pipelineRows_spec_key_ok (by simp [specSortKeys]) db a asc skip limit),
                 fun hc => by simp at hc⟩
        · exact ⟨fun hc => absurd hc (pipelineRows_spec_key_ok (by simp [specSortKeys]) db a asc skip limit),
                 fun hc => by simp at hc⟩
        · exact ⟨fun hc => absurd hc (pipelineRows_spec_key_ok (by simp [specSortKeys]) db a asc skip limit),
                 fun hc => by simp at hc⟩
        · exact ⟨fun hc => absurd hc (pipelineRows_spec_key_ok (by simp [specSortKeys]) db a asc skip limit),
                 fun hc => by simp at hc⟩
        · exact ⟨fun _ => by simp, fun _ => rfl⟩
        · exact ⟨fun hc => absurd hc (pipelineRows_spec_key_ok (by simp [specSortKeys]) db a asc skip limit),
                 fun hc => by simp at hc⟩
        · exact ⟨fun hc => absurd hc (pipelineRows_spec_key_ok (by simp [specSortKeys]) db a asc skip limit),
                 fun hc => by simp at hc⟩
    · have hv : validateSort (some s) = "login" := by
        rw [hv0, if_neg hs, if_neg hcont]
      rw [hv]
      refine ⟨fun _ => rfl, ?_⟩
      constructor
      · intro hc
        exact absurd hc (pipelineRows_spec_key_ok (by simp [specSortKeys]) db a asc skip limit)
      · intro hc
        have : s ∈ allowedSortFields := by
          simp only [allowedSortFields, List.mem_cons]
          simp only [List.mem_cons, List.not_mem_nil, or_false] at hc
          rcases hc with rfl | rfl | rfl | rfl | rfl | rfl
          · right; right; right; right; left; rfl
          · right; right; right; right; right; left; rfl
          · right; right; right; right; right; right; left; rfl
          · right; right; right; right; right; right; right; left; rfl
          · right; right; right; right; right; right; right; right; left; rfl
          · right; right; right; right; right; right; right; right; right; right;
              right; right; right; right; left; rfl
        rw [← List.elem_iff] at this
        exact absurd this hcont

/-- C4 (witness): at the concrete unknown key `garbage` the route runs
the default login pipeline. -/
theorem sort_key_dispatch_witness :
    pipelineRows (validateSort (some "garbage")) emptyDb noArgs true 0 50 =
      pipelineRows "login" emptyDb noArgs true 0 50 :=
  (sort_key_dispatch "garbage" emptyDb noArgs true 0 50).1 (by decide)

/-- C6 (counterexample): a student with grade `Transcender` and active
flag false passes the `status=transcender` filter of the route, though
the claim requires the active flag to be true. -/
theorem transcender_filter_ignores_active_flag :
    inactiveTranscender.active = false ∧
    statusMatch (some "transcender") inactiveTranscender = true ∧
    matchStage ⟨none, none, "", some "transcender"⟩ inactiveTranscender = true :=
  ⟨rfl, rfl, rfl⟩

/-- C6 (amended): in the route's `matchStage`, `cadet` requires grade
`Cadet` AND the active flag, but `transcender` requires only grade
`Transcender` (the active flag is ignored); in the N1QL controllers
(and the Mongo controller revision) both `cadet` and `transcender`
require only (lowercase) grade equality, while `piscine` carries the
active-flag conjunct instead. -/
theorem status_filter_grade_conditions (s : Student) :
    statusMatch (some "cadet") s = (s.active && s.grade == some "Cadet") ∧
    statusMatch (some "transcender") s = (s.grade == some "Transcender") ∧
    statusCondLower (some "cadet") s = (s.grade == some "cadet") ∧
    statusCondLower (some "transcender") s = (s.grade == some "transcender") ∧
    statusCondLower (some "piscine") s = (s.grade == some "piscine" && s.active) :=
  ⟨rfl, rfl, rfl, rfl, rfl⟩

/-- C6 (witness): the grade conditions evaluated at the inactive
transcender student. -/
theorem status_filter_grade_conditions_witness :
    statusMatch (some "transcender") inactiveTranscender =
      (inactiveTranscender.grade == some "Transcender") :=
  (status_filter_grade_conditions inactiveTranscender).2.1

/-- C10 (counterexample): `campusId=0` validates to 0, but the route's
`matchStage` tests `!== null`, so the filter with campus 0 differs
from the no-campus filter: a student on campus 1 is excluded by the
former and included by the latter. -/
theorem campus_zero_route_filter_differs :
    validateCampusId (some "0") = .ok (some 0) ∧
    matchStage ⟨some 0, none, "", none⟩ alice = false ∧
    matchStage ⟨none, none, "", none⟩ alice = true :=
  ⟨rfl, rfl, rfl⟩

/-- C10 (amended): `campusId="0"` passes validation and returns 0; in
the N1QL controllers the campus clause is pushed only when `campusId`
is truthy, so campus 0 produces exactly the no-campus filter; in the
Mongo route, however, `matchStage` tests `!== null`, so campus 0 adds
the equality `campusId == 0` to the predicate. -/
theorem campus_zero_truthiness (pool : Option (String × String)) (search : String)
    (status : Option String) (s : Student) :
    validateCampusId (some "0") = .ok (some 0) ∧
    n1qlStudentFilter (some 0) pool search status s =
      n1qlStudentFilter none pool search status s ∧
    matchStage ⟨some 0, pool, search, status⟩ s =
      ((s.campusId == 0) && matchStage ⟨none, pool, search, status⟩ s) := by
  refine ⟨rfl, rfl, ?_⟩
  simp [matchStage, Bool.and_assoc]

/-- C10 (witness): the truthiness equivalence evaluated at a concrete
student with no further filters. -/
theorem campus_zero_truthiness_witness :
    n1qlStudentFilter (some 0) none "" none zoe =
      n1qlStudentFilter none none "" none zoe :=
  (campus_zero_truthiness none "" none zoe).2.1

theorem jsMathCeilDiv_eq_ceil (t l : Nat) (hl : 0 < l) :
    jsMathCeilDiv t l = Nat.ceil ((t : ℚ) / (l : ℚ)) := by
  have hgc : ∀ n : Nat, jsMathCeilDiv t l ≤ n ↔ t ≤ l * n := by
    intro n
    rw [show jsMathCeilDiv t l = t ⌈/⌉ l from (Nat.ceilDiv_eq_add_pred_div t l).symm]
    exact ceilDiv_le_iff_le_mul hl
  have hq : (0 : ℚ) < (l : ℚ) := by exact_mod_cast hl
  have hgc2 : ∀ n : Nat, Nat.ceil ((t : ℚ) / (l : ℚ)) ≤ n ↔ t ≤ l * n := by
    intro n
    rw [Nat.ceil_le, div_le_iff₀ hq, ← Nat.cast_mul, Nat.cast_le, Nat.mul_comm n l]
  exact le_antisymm ((hgc _).2 ((hgc2 _).1 le_rfl)) ((hgc2 _).2 ((hgc _).1 le_rfl))

theorem validateLimit_bounds (raw : Option String) :
    1 ≤ validateLimit raw ∧ validateLimit raw ≤ 500 := by
  rcases h : jsParseIntOpt raw with _ | n
  · simp [validateLimit, h]
  · simp only [validateLimit, h]
    split_ifs <;> omega

theorem routeLimit_bounds (raw : Option String) :
    1 ≤ routeLimit raw ∧ routeLimit raw ≤ 50 := by
  have h := validateLimit_bounds raw
  unfold routeLimit
  constructor
  · exact le_min h.1 (by omega)
  · exact min_le_right _ _

theorem extractTotal_countDocs (n : Nat) : extractTotal (countDocs n) = n := by
  unfold extractTotal countDocs
  by_cases h : n = 0
  · rw [if_pos h, h]
    rfl
  · rw [if_neg h]
    rfl

/-- C2: every ranking response of the route has
`totalPages = ceil(total / limit)` where `total` is the value of the
corresponding count pipeline and `limit` the validated page size;
the N1QL `loginbasesort` computes its pagination the same way. -/
theorem totalPages_is_ceil (key : String) (db : DB) (a : QueryArgs) (asc : Bool)
    (page : Int) (rawLimit : Option String) (resp : RankResponse)
    (h : rankResponse key db a asc page rawLimit = .ok resp)
    (ncId : Option Int) (npool : Option (String × String)) (nsearch : String)
    (nstatus : Option String) (nlimit npage : Nat) (hl : 0 < nlimit) :
    resp.pagination.total = countTotal key db a ∧
    resp.pagination.limit = routeLimit rawLimit ∧
    resp.pagination.totalPages =
      Nat.ceil ((resp.pagination.total : ℚ) / (((routeLimit rawLimit).toNat : ℚ))) ∧
    (loginbasesortPagination db ncId npool nsearch nstatus nlimit npage).totalPages =
      Nat.ceil (((loginbasesortPagination db ncId npool nsearch nstatus nlimit npage).total : ℚ) /
        (nlimit : ℚ)) := by
  have hlast : (loginbasesortPagination db ncId npool nsearch nstatus nlimit npage).totalPages =
      Nat.ceil (((loginbasesortPagination db ncId npool nsearch nstatus nlimit npage).total : ℚ) /
        (nlimit : ℚ)) := by
    unfold loginbasesortPagination
    exact jsMathCeilDiv_eq_ceil _ _ hl
  simp only [rankResponse] at h
  split at h
  · exact absurd h (by intro hc; cases hc)
  · rcases hp : pipelineRows key db a asc ((page - 1) * routeLimit rawLimit).toNat
        (routeLimit rawLimit).toNat with e | rows
    · rw [hp, except_error_bind] at h
      cases h
    · rw [hp, except_ok_bind] at h
      injection h with h2
      subst h2
      have hpos : 0 < (routeLimit rawLimit).toNat := by
        have := (routeLimit_bounds rawLimit).1
        omega
      refine ⟨extractTotal_countDocs _, rfl, ?_, hlast⟩
      show jsMathCeilDiv (extractTotal (countDocs (countTotal key db a)))
          (routeLimit rawLimit).toNat = _
      rw [jsMathCeilDiv_eq_ceil _ _ hpos]

/-- C2 (witness): the empty store with default parameters gives total 0
and 0 pages. -/
theorem totalPages_is_ceil_witness :
    (RankResponse.mk [] ⟨0, 1, 50, 0⟩).pagination.total =
      countTotal "login" emptyDb noArgs :=
  (totalPages_is_ceil "login" emptyDb noArgs true 1 none
    (RankResponse.mk [] ⟨0, 1, 50, 0⟩) rfl none none "" none 50 1 (by decide)).1

theorem string_toList_nil {s : String} (h : s.toList = []) : s = "" := by
  cases s with
  | mk data =>
    simp only [String.toList] at h
    simp [h]

theorem mongoIntOfString_digits {p : String} (hne : p ≠ "")
    (hd : p.toList.all Char.isDigit = true) :
    mongoIntOfString p = some (digitsToNat p.toList : Int) := by
  rcases hl : p.toList with _ | ⟨c, cs⟩
  · exact absurd (string_toList_nil hl) hne
  · have hcd : c.isDigit = true := by
      rw [hl, List.all_cons, Bool.and_eq_true] at hd
      exact hd.1
    have hcn : ¬((c == '-') = true) := by
      intro hc
      rw [beq_iff_eq] at hc
      subst hc
      simp [Char.isDigit] at hcd
    unfold mongoIntOfString
    rw [hl]
    simp only [mongoIntOfChars]
    rw [if_neg hcn, if_pos (by rw [← hl]; exact hd)]

theorem mToInt_digits {p : String} (hne : p ≠ "")
    (hd : p.toList.all Char.isDigit = true) :
    mToInt (some p) = .ok (some (digitsToNat p.toList : Int)) := by
  simp only [mToInt, mongoIntOfString_digits hne hd]

theorem dayLogSeconds_hms {v : String} (h : isHMS v = true) :
    dayLogSeconds v = .ok (some (hmsVal v)) := by
  unfold isHMS at h
  rw [Bool.and_eq_true] at h
  obtain ⟨h3, hall⟩ := h
  obtain ⟨x, y, z, hxyz⟩ := List.length_eq_three.mp (by rwa [beq_iff_eq] at h3)
  rw [hxyz] at hall
  simp only [List.all_cons, List.all_nil, Bool.and_eq_true, and_true] at hall
  obtain ⟨⟨hx1, hx2⟩, ⟨hy1, hy2⟩, hz1, hz2⟩ := hall
  have e0 : (jsSplit v ':')[0]? = some x := by rw [hxyz]; rfl
  have e1 : (jsSplit v ':')[1]? = some y := by rw [hxyz]; rfl
  have e2 : (jsSplit v ':')[2]? = some z := by rw [hxyz]; rfl
  have hv : hmsVal v = (digitsToNat x.toList : Int) * 3600 +
      (digitsToNat y.toList : Int) * 60 + (digitsToNat z.toList : Int) := by
    unfold hmsVal
    rw [hxyz]
  unfold dayLogSeconds
  rw [e0, e1, e2,
    mToInt_digits (bne_iff_ne.mp hx1) hx2,
    mToInt_digits (bne_iff_ne.mp hy1) hy2,
    mToInt_digits (bne_iff_ne.mp hz1) hz2,
    except_ok_bind, except_ok_bind, except_ok_bind, hv]
  rfl

theorem daysFold_hms (days : List (String × String))
    (h : ∀ dv ∈ days, isHMS dv.2 = true) (acc : Int) :
    List.foldlM (fun acc dv => do pure (addN acc (← dayLogSeconds dv.2)))
        (some acc) days =
      (Except.ok (some (acc + (days.map (fun dv => hmsVal dv.2)).sum)) :
        Except Unit (Option Int)) := by
  induction days generalizing acc with
  | nil =>
    simp only [List.foldlM_nil, List.map_nil, List.sum_nil, Int.add_zero]
    rfl
  | cons d rest ih =>
    rw [List.foldlM_cons]
    have hd := dayLogSeconds_hms (h d (List.mem_cons_self _ _))
    simp only [hd, except_ok_bind]
    have hstep : (pure (addN (some acc) (some (hmsVal d.2))) :
        Except Unit (Option Int)) = Except.ok (some (acc + hmsVal d.2)) := rfl
    rw [hstep, except_ok_bind]
    rw [ih (fun dv hdv => h dv (List.mem_cons_of_mem _ hdv)) (acc + hmsVal d.2)]
    rw [List.map_cons, List.sum_cons, Int.add_assoc]

theorem daysLogSeconds_hms (days : List (String × String))
    (h : ∀ dv ∈ days, isHMS dv.2 = true) :
    daysLogSeconds days = .ok (some ((days.map (fun dv => hmsVal dv.2)).sum)) := by
  unfold daysLogSeconds
  rw [daysFold_hms days h 0, Int.zero_add]

theorem totalLogSeconds_hms (months : List (String × List (String × String)))
    (h : allHMS months) :
    totalLogSeconds months = .ok (some (hmsTotal months)) := by
  unfold totalLogSeconds hmsTotal
  suffices hgen : ∀ acc : Int,
      List.foldlM (fun acc md => do pure (addN acc (← daysLogSeconds md.2)))
          (some acc) months =
        (Except.ok
          (some (acc + (months.map (fun md => (md.2.map (fun dv => hmsVal dv.2)).sum)).sum)) :
          Except Unit (Option Int)) by
    rw [hgen 0, Int.zero_add]
  induction months with
  | nil =>
    intro acc
    simp only [List.foldlM_nil, List.map_nil, List.sum_nil, Int.add_zero]
    rfl
  | cons md rest ih =>
    intro acc
    rw [List.foldlM_cons]
    have hd := daysLogSeconds_hms md.2 (h md (List.mem_cons_self _ _))
    simp only [hd, except_ok_bind]
    have hstep : (pure (addN (some acc) (some ((md.2.map (fun dv => hmsVal dv.2)).sum))) :
        Except Unit (Option Int)) =
        Except.ok (some (acc + (md.2.map (fun dv => hmsVal dv.2)).sum)) := rfl
    rw [hstep, except_ok_bind]
    rw [ih (fun m hm => h m (List.mem_cons_of_mem _ hm)) _]
    rw [List.map_cons, List.sum_cons, Int.add_assoc]

/-- C5 (counterexample): the claim says malformed entries contribute 0
and never cause an exception, but the ranking pipeline's `$toInt`
raises an aggregation error on the non-numeric day string `bad`. -/
theorem log_time_pipeline_errors_on_malformed :
    totalLogSeconds [("2024-03", [("01", "bad")])] = .error () := rfl

/-- C5 (amended): for months maps whose day entries are all well-formed
`HH:MM:SS` strings, the ranking pipeline's codec yields
`H*3600 + M*60 + S` per entry and sums every day of every month (9000
on the concrete example); the detail-view JS parser never throws and
maps malformed segments to 0, but it produces minutes
(`H*60 + M + floor(S/60)`, e.g. 150 for `02:30:00`); the pipeline's
`$toInt`, by contrast, raises an aggregation error on a non-numeric
segment instead of contributing 0. -/
theorem duration_codec_spec (months : List (String × List (String × String)))
    (h : allHMS months) :
    totalLogSeconds months = .ok (some (hmsTotal months)) ∧
    totalLogSeconds [("2024-03", [("01", "02:30:00"), ("02", "00:00:00")])] =
      .ok (some 9000) ∧
    parseDayMinutes "bad" = 0 ∧
    parseDayMinutes "02:30:00" = 150 ∧
    detailLogTimes [("2024-03", [("01", some "bad"), ("02", none), ("03", some "")])] =
      [("2024-03-01", 0)] :=
  ⟨totalLogSeconds_hms months h, rfl, rfl, rfl, rfl⟩

/-- C5 (witness): the concrete months map of the specification is
well-formed and totals 9000 seconds. -/
theorem duration_codec_spec_witness :
    totalLogSeconds [("2024-03", [("01", "02:30:00"), ("02", "00:00:00")])] =
      .ok (some (hmsTotal [("2024-03", [("01", "02:30:00"), ("02", "00:00:00")])])) :=
  (duration_codec_spec [("2024-03", [("01", "02:30:00"), ("02", "00:00:00")])]
    (by decide)).1

theorem cheatCountOf_pos_iff (db : DB) (login : String) :
    0 < cheatCountOf db login ↔
      ∃ p ∈ db.projects, p.login = login ∧ p.score = -42 := by
  unfold cheatCountOf cheatProjectsOf
  rw [List.length_pos]
  constructor
  · intro h
    obtain ⟨p, hp⟩ := List.exists_mem_of_ne_nil _ h
    rw [List.mem_filter, Bool.and_eq_true, beq_iff_eq, beq_iff_eq] at hp
    exact ⟨p, hp.1, hp.2.1, hp.2.2⟩
  · rintro ⟨p, hp, h1, h2⟩
    intro hnil
    have hmem : p ∈ db.projects.filter (fun p => p.login == login && p.score == -42) := by
      rw [List.mem_filter, Bool.and_eq_true, beq_iff_eq, beq_iff_eq]
      exact ⟨hp, h1, h2⟩
    rw [hnil] at hmem
    cases hmem

theorem cheatPairs_length (db : DB) (a : QueryArgs) :
    (cheatPairs db a).length =
      (db.students.filter (fun s =>
        matchStage a s && decide (0 < cheatCountOf db s.login))).length := by
  unfold cheatPairs
  rw [← List.countP_eq_length_filter, ← List.countP_eq_length_filter, List.countP_map]
  rfl

/-- C1: ranking by `cheat_count` only ever returns students with at
least one project record scored `-42`; the count pipeline of that sort
key counts exactly the filtered students with a positive cheat count
(not the raw filtered population), and the same holds for the N1QL
`projectcheatsort` (rows and `COUNT(DISTINCT p.login)` alike). -/
theorem cheat_count_ranking (db : DB) (a : QueryArgs) (asc : Bool) (skip limit : Nat)
    (rows : List Row) (h : pipelineRows "cheat_count" db a asc skip limit = .ok rows)
    (campusId : Option Int) (pool : Option (String × String)) (search : String)
    (status : Option String)
    (hnd : (db.students.map (fun s => s.login)).Nodup) :
    (∀ r ∈ rows, ∃ p ∈ db.projects, p.login = r.base.login ∧ p.score = -42) ∧
    countTotal "cheat_count" db a =
      (db.students.filter (fun s =>
        matchStage a s && decide (0 < cheatCountOf db s.login))).length ∧
    (∀ g ∈ projectcheatGroups db campusId pool search status,
      0 < g.2 ∧ ∃ p ∈ db.projects, p.login = g.1.login ∧ p.score = -42) ∧
    projectcheatTotal db campusId pool search status =
      (db.students.filter (fun s => n1qlStudentFilter campusId pool search status s &&
        decide (0 < cheatCountOf db s.login))).length := by
  have hpr : pipelineRows "cheat_count" db a asc skip limit =
      .ok ((paginate (dir asc (fun x y => decide (x.2 ≤ y.2))) skip limit
            (cheatPairs db a)).map
        (fun p => ⟨p.1, [("cheat_count", .i p.2), ("has_cheats", .b true)]⟩)) := rfl
  rw [hpr] at h
  injection h with h2
  refine ⟨?_, cheatPairs_length db a, ?_, ?_⟩
  · intro r hr
    rw [← h2, List.mem_map] at hr
    obtain ⟨p, hp, hrp⟩ := hr
    have hp2 := mem_paginate hp
    unfold cheatPairs at hp2
    rw [List.mem_filter] at hp2
    obtain ⟨hp3, hp4⟩ := hp2
    rw [List.mem_map] at hp3
    obtain ⟨s, _, hsp⟩ := hp3
    rw [Bool.and_eq_true, decide_eq_true_eq] at hp4
    have hpos : 0 < cheatCountOf db p.1.login := by
      rw [← hsp] at hp4 ⊢
      exact hp4.2
    obtain ⟨q, hq, hql, hqs⟩ := (cheatCountOf_pos_iff db p.1.login).mp hpos
    refine ⟨q, hq, ?_, hqs⟩
    rw [hql, ← hrp]
  · intro g hg
    unfold projectcheatGroups at hg
    rw [List.mem_map] at hg
    obtain ⟨s, hs, hgs⟩ := hg
    rw [List.mem_dedup, List.mem_map] at hs
    obtain ⟨t, ht, hts⟩ := hs
    have htup := ht
    unfold cheatJoinTuples at htup
    rw [List.mem_flatMap] at htup
    obtain ⟨p, hp, htp⟩ := htup
    by_cases hsc : (p.score == (-42 : Int)) = true
    · rw [if_pos hsc] at htp
      rw [List.mem_map] at htp
      obtain ⟨s2, hs2, hts2⟩ := htp
      rw [List.mem_filter, Bool.and_eq_true, beq_iff_eq] at hs2
      constructor
      · rw [← hgs]
        show 0 < ((cheatJoinTuples db campusId pool search status).filter
          (fun t2 => t2.2 == s)).length
        rw [List.length_pos]
        intro hnil
        have : t ∈ (cheatJoinTuples db campusId pool search status).filter
            (fun t2 => t2.2 == s) := by
          rw [List.mem_filter]
          refine ⟨ht, ?_⟩
          rw [hts]
          simp
        rw [hnil] at this
        cases this
      · refine ⟨p, hp, ?_, by rwa [beq_iff_eq] at hsc⟩
        rw [← hgs]
        show p.login = s.login
        rw [← hts, ← hts2]
        exact (hs2.2.1).symm
    · rw [if_neg hsc] at htp
      cases htp
  · have hmemiff : ∀ l : String,
        l ∈ (cheatJoinTuples db campusId pool search status).map (fun t => t.1.login) ↔
        l ∈ (db.students.filter (fun s =>
          n1qlStudentFilter campusId pool search status s &&
            decide (0 < cheatCountOf db s.login))).map (fun s => s.login) := by
      intro l
      constructor
      · intro hl
        rw [List.mem_map] at hl
        obtain ⟨t, ht, htl⟩ := hl
        unfold cheatJoinTuples at ht
        rw [List.mem_flatMap] at ht
        obtain ⟨p, hp, htp⟩ := ht
        by_cases hsc : (p.score == (-42 : Int)) = true
        · rw [if_pos hsc] at htp
          rw [List.mem_map] at htp
          obtain ⟨s, hsmem, hts⟩ := htp
          rw [List.mem_filter, Bool.and_eq_true, beq_iff_eq] at hsmem
          obtain ⟨hs1, hsl, hsf⟩ := hsmem
          rw [List.mem_map]
          refine ⟨s, ?_, ?_⟩
          · rw [List.mem_filter, Bool.and_eq_true, decide_eq_true_eq]
            refine ⟨hs1, hsf, ?_⟩
            rw [cheatCountOf_pos_iff]
            exact ⟨p, hp, by rw [hsl], by rwa [beq_iff_eq] at hsc⟩
          · rw [hsl, ← htl, ← hts]
        · rw [if_neg hsc] at htp
          cases htp
      · intro hl
        rw [List.mem_map] at hl
        obtain ⟨s, hsmem, hsl⟩ := hl
        rw [List.mem_filter, Bool.and_eq_true, decide_eq_true_eq] at hsmem
        obtain ⟨hs1, hsf, hpos⟩ := hsmem
        obtain ⟨p, hp, hpl, hpsc⟩ := (cheatCountOf_pos_iff db s.login).mp hpos
        rw [List.mem_map]
        refine ⟨(p, s), ?_, by rw [show (p, s).1.login = p.login from rfl, hpl, hsl]⟩
        unfold cheatJoinTuples
        rw [List.mem_flatMap]
        refine ⟨p, hp, ?_⟩
        rw [if_pos (by rw [beq_iff_eq]; exact hpsc)]
        rw [List.mem_map]
        refine ⟨s, ?_, rfl⟩
        rw [List.mem_filter, Bool.and_eq_true, beq_iff_eq]
        exact ⟨hs1, hpl.symm, hsf⟩
    have hfin : ((cheatJoinTuples db campusId pool search status).map
          (fun t => t.1.login)).toFinset =
        ((db.students.filter (fun s =>
          n1qlStudentFilter campusId pool search status s &&
            decide (0 < cheatCountOf db s.login))).map (fun s => s.login)).toFinset := by
      ext l
      rw [List.mem_toFinset, List.mem_toFinset]
      exact hmemiff l
    have hsub : ((db.students.filter (fun s =>
          n1qlStudentFilter campusId pool search status s &&
            decide (0 < cheatCountOf db s.login))).map (fun s => s.login)).Sublist
        (db.students.map (fun s => s.login)) :=
      (List.filter_sublist _).map _
    have hnd2 := List.Nodup.sublist hsub hnd
    unfold projectcheatTotal
    rw [← List.card_toFinset, hfin, List.toFinset_card_of_nodup hnd2, List.length_map]

/-- C1 (witness): in a store where `alice` has one `-42` project, the
cheat-count total is the number of students with a cheat record. -/
theorem cheat_count_ranking_witness :
    countTotal "cheat_count" dbAlice noArgs =
      (dbAlice.students.filter (fun s =>
        matchStage noArgs s && decide (0 < cheatCountOf dbAlice s.login))).length :=
  (cheat_count_ranking dbAlice noArgs true 0 50
    [⟨alice, [("cheat_count", DVal.i 1), ("has_cheats", DVal.b true)]⟩] rfl
    none none "" none (by decide)).2.1

/-- C3 (counterexample): `zoe` has zero non-null ratings; the route's
`avg_rating` pipeline includes her with a null `avg_rating` (MongoDB
`$avg` over the empty array), not with 0, and the Mongo controller
revision's `averageratesort` excludes her entirely. -/
theorem avg_rating_zero_ratings_gives_null :
    pipelineRows "avg_rating" dbZoe noArgs true 0 50 =
      .ok [⟨zoe, [("avg_rating", DVal.oq none), ("has_cheats", DVal.b false)]⟩] ∧
    p9AvgPopulation dbZoe none none "" none = [] :=
  ⟨rfl, rfl⟩

/-- C3 (amended): every student passing the filter predicate appears in
the route's `avg_rating` population, with derived value the arithmetic
mean of its non-null ratings when it has at least one, and null — not
0 — when it has none; the Mongo controller revision's `averageratesort`
instead drops students with no non-null rating from the population
altogether. -/
theorem avg_rating_population (db : DB) (a : QueryArgs)
    (campusId : Option Int) (pool : Option (String × String)) (search : String)
    (status : Option String) :
    (∀ s ∈ db.students, matchStage a s = true →
      (s, mongoAvg (nonNullRatingsOf db s.login)) ∈ avgPairs db a) ∧
    (∀ s v, (s, v) ∈ avgPairs db a →
      (nonNullRatingsOf db s.login = [] → v = none) ∧
      (∀ r1 rs, nonNullRatingsOf db s.login = r1 :: rs →
        v = some ((((r1 :: rs).map (fun n => (n : ℚ))).sum) / ((r1 :: rs).length : ℚ)))) ∧
    (∀ r ∈ p9AvgPopulation db campusId pool search status,
      ∃ f ∈ db.feedbacks, f.rating.isSome = true ∧ f.login = r.base.login) := by
  refine ⟨?_, ?_, ?_⟩
  · intro s hs hm
    unfold avgPairs
    rw [List.mem_map]
    exact ⟨s, List.mem_filter.mpr ⟨hs, hm⟩, rfl⟩
  · intro s v hm
    unfold avgPairs at hm
    rw [List.mem_map] at hm
    obtain ⟨s2, _, heq⟩ := hm
    rw [Prod.mk.injEq] at heq
    obtain ⟨hs2, hv⟩ := heq
    subst hs2
    constructor
    · intro hnil
      rw [← hv, hnil]
      rfl
    · intro r1 rs hcons
      rw [← hv, hcons]
      rfl
  · intro r hr
    unfold p9AvgPopulation at hr
    rw [List.mem_flatMap] at hr
    obtain ⟨lv, hlv, hrm⟩ := hr
    rw [List.mem_map] at hrm
    obtain ⟨s, hs, hrs⟩ := hrm
    rw [List.mem_filter, Bool.and_eq_true, beq_iff_eq] at hs
    unfold p9AvgPairs at hlv
    rw [List.mem_map] at hlv
    obtain ⟨l0, hl0, hlv2⟩ := hlv
    rw [List.mem_dedup, List.mem_map] at hl0
    obtain ⟨f, hf, hfl⟩ := hl0
    rw [List.mem_filter, Bool.and_eq_true] at hf
    refine ⟨f, hf.1, hf.2.2, ?_⟩
    have h1 : lv.1 = l0 := by rw [← hlv2]
    have h2 : r.base = s := by rw [← hrs]
    rw [hfl, ← h1, ← hs.2.1, h2]

/-- C3 (witness): `zoe` (zero ratings, trivial filters) appears in the
avg_rating population paired with the mean of her empty rating list. -/
theorem avg_rating_population_witness :
    (zoe, mongoAvg (nonNullRatingsOf dbZoe zoe.login)) ∈ avgPairs dbZoe noArgs :=
  (avg_rating_population dbZoe noArgs none none "" none).1 zoe (by decide) (by decide)

/-- C9 (counterexample): a ranking by `godfather_count` returns rows
with three derived fields (`godfather_count`, `children_count`,
`has_cheats`), not exactly the one matching the requested sort key. -/
theorem rows_not_single_derived :
    pipelineRows "godfather_count" dbZoe noArgs true 0 50 =
      .ok [⟨zoe, [("godfather_count", DVal.i 0), ("children_count", DVal.i 0),
                  ("has_cheats", DVal.b false)]⟩] ∧
    (["godfather_count", "children_count", "has_cheats"] : List String) ≠
      ["godfather_count"] :=
  ⟨rfl, by decide⟩

/-- C9 (amended): every response row exposes the base student fields
plus `has_cheats` and, for a derived sort key, the derived field of
that key — with the patronage sorts exposing both `godfather_count`
and `children_count`; no other derived fields appear, for any sort key
of the enumeration. -/
theorem row_derived_fields {key : String} (hk : key ∈ specSortKeys)
    (db : DB) (a : QueryArgs) (asc : Bool) (skip limit : Nat) (rows : List Row)
    (h : pipelineRows key db a asc skip limit = .ok rows) :
    ∀ r ∈ rows, r.derived.map Prod.fst = expectedDerived key := by
  simp only [specSortKeys, List.mem_cons, List.not_mem_nil, or_false] at hk
  rcases hk with rfl | rfl | rfl | rfl | rfl | rfl | rfl | rfl | rfl | rfl | rfl
  case inr.inr.inr.inr.inr.inr.inr.inr.inl =>
    have hred : pipelineRows "log_time" db a asc skip limit =
        (logTimePairs db a >>= fun pairs =>
          Except.ok ((paginate (dir asc (fun x y => leOptInt x.2 y.2)) skip limit pairs).map
            (fun p => ⟨p.1, [("log_time", .oi p.2),
                             ("has_cheats", .b (hasCheats db p.1.login))]⟩))) := rfl
    rw [hred] at h
    rcases hml : logTimePairs db a with e | pairs
    · rw [hml, except_error_bind] at h
      cases h
    · rw [hml, except_ok_bind] at h
      injection h with h2
      intro r hr
      rw [← h2, List.mem_map] at hr
      obtain ⟨p, _, hrp⟩ := hr
      rw [← hrp]
      rfl
  all_goals
    injection h with h2
  all_goals
    intro r hr
  all_goals
    rw [← h2, List.mem_map] at hr
  all_goals
    obtain ⟨p, _, hrp⟩ := hr
  all_goals
    rw [← hrp]
  all_goals
    rfl

/-- C9 (witness): a login-sorted row of the one-student store carries
exactly the derived fields expected for `login`. -/
theorem row_derived_fields_witness :
    (⟨zoe, [("has_cheats", DVal.b false)]⟩ : Row).derived.map Prod.fst =
      expectedDerived "login" :=
  @row_derived_fields "login" (by decide) dbZoe noArgs true 0 50
    [⟨zoe, [("has_cheats", DVal.b false)]⟩] rfl
    ⟨zoe, [("has_cheats", DVal.b false)]⟩ (by simp)

end Watcher
